import Mathlib

/-!
Verification of the resilient Notion API client layer
(`src/internal/sdk.ts` and the operations module): the token-bucket rate
limiter, the retrying HTTP request pipeline, the response parser, the typed
client facade and the cursor-based pagination helper, shallowly embedded as
executable Lean definitions.
-/

namespace NotionService

/-! ## Domain: errors

`NotionError` from the operations module: `{ status, code, message,
requestId? }`.  At runtime `code` and `message` are strings (the
`Schema.TaggedError` constructor validates them, see `validateErrorPayload`
below), and `requestId` is optional. -/

/-- The `NotionError` value of the source (status, code, message, optional
request id). -/
structure NotionError where
  status : Nat
  code : String
  message : String
  requestId : Option String
deriving DecidableEq, Repr

/-- The fourteen `NotionErrorCode` string literals of the operations module. -/
def notionErrorCodes : List String :=
  ["invalid_json", "invalid_request_url", "invalid_request", "validation_error",
   "missing_version", "unauthorized", "restricted_resource", "object_not_found",
   "conflict_error", "rate_limited", "internal_server_error",
   "service_unavailable", "database_connection_unavailable", "gateway_timeout"]

/-! ## Retry pipeline (`request` in sdk.ts)

The source wraps one attempt (acquire permit, build URL, fetch, parse) in
`Effect.retry({ times: 3, schedule: Schedule.exponential(Duration.seconds(1)),
while: ... })`.  The `while` predicate is the disjunction of the four
transient codes; `times: 3` intersects the exponential schedule with three
recurrences, so the delays before the retries are 1000 ms, 2000 ms, 4000 ms.
We embed one attempt as an abstract `call : Nat → Except NotionError α`
(the outcome of the n-th attempt) and instrument the loop with the attempt
count and the list of inter-attempt delays in milliseconds. -/

/-- The `while:` retry predicate of `Effect.retry` in `request`. -/
def retryWhile (e : NotionError) : Bool :=
  e.code == "rate_limited" || e.code == "internal_server_error" ||
    e.code == "service_unavailable" || e.code == "gateway_timeout"

/-- Delay, in milliseconds, produced by `Schedule.exponential(Duration.seconds(1))`
before the retry following attempt number `attempt` (0-based): 1000·2^attempt. -/
def expDelay (attempt : Nat) : Nat := 1000 * 2 ^ attempt

/-- The retry loop of `Effect.retry`: run the attempt; on failure, retry while
the error satisfies `retryWhile` and retries remain, sleeping `expDelay`
between attempts.  Returns the final outcome, the number of attempts
performed, and the inter-attempt delays (ms). -/
def retryLoop {α : Type} (call : Nat → Except NotionError α) :
    Nat → Nat → Except NotionError α × Nat × List Nat
  | retriesLeft, attempt =>
    match call attempt with
    | .ok v => (.ok v, 1, [])
    | .error e =>
      if retryWhile e then
        match retriesLeft with
        | 0 => (.error e, 1, [])
        | r + 1 =>
          let res := retryLoop call r (attempt + 1)
          (res.1, res.2.1 + 1, expDelay attempt :: res.2.2)
      else (.error e, 1, [])

/-- Function `request` performs the initial attempt plus up to `times: 3` retries. -/
def requestRetry {α : Type} (call : Nat → Except NotionError α) :
    Except NotionError α × Nat × List Nat :=
  retryLoop call 3 0

/-! ## Rate limiter (`createRateLimiter` in sdk.ts)

`createRateLimiter(requestsPerSecond, burst)` makes a `TSemaphore` with
`burst` permits, forks a daemon that forever sleeps `1000/requestsPerSecond`
ms and then runs `TSemaphore.releaseN(semaphore, 1)`, and exposes
`acquire = TSemaphore.withPermit(semaphore)(Effect.void)`.

`TSemaphore` semantics (Effect library): the state is a count of available
permits; `acquire` suspends until the count is positive and decrements it;
`releaseN n` adds `n` with no upper bound; `withPermit(sem)(eff)` acquires a
permit, runs `eff`, and releases the permit when `eff` completes.  Since the
wrapped effect here is `Effect.void`, a completed `acquire` call is an
acquire immediately followed by a release. -/

/-- Operation `TSemaphore` acquire: available only when a permit exists; decrements. -/
def tsemAcquire (permits : Nat) : Option Nat :=
  if 1 ≤ permits then some (permits - 1) else none

/-- Operation `TSemaphore.releaseN n`: adds `n` permits, with no cap. -/
def tsemReleaseN (n : Nat) (permits : Nat) : Nat := permits + n

/-- The limiter's `acquire`, i.e. `TSemaphore.withPermit(semaphore)(Effect.void)`:
acquire one permit and release it as soon as the wrapped `Effect.void`
completes.  `none` means the caller is still suspended waiting for a permit. -/
def withPermitVoid (permits : Nat) : Option Nat :=
  (tsemAcquire permits).map (tsemReleaseN 1)

/-- One cycle of the forked refill daemon: sleep, then `releaseN 1`. -/
def refillCycle (permits : Nat) : Nat := tsemReleaseN 1 permits

/-- Permit counts reachable from the initial `burst` permits by completed
`acquire` calls and refill cycles, in any interleaving. -/
inductive RateLimiterReachable (burst : Nat) : Nat → Prop
  | init : RateLimiterReachable burst burst
  | acquire (p q : Nat) : RateLimiterReachable burst p → withPermitVoid p = some q →
      RateLimiterReachable burst q
  | refill (p : Nat) : RateLimiterReachable burst p →
      RateLimiterReachable burst (refillCycle p)

/-! ## Pagination (`fetchAllPages` in the operations module)

`PaginatedList<T>` carries `results`, `next_cursor : Option<string>` and
`has_more` (the constant `object: "list"` discriminator and the optional
`type`/`page_or_database`/`request_id` metadata fields play no role in the
traversal and are elided).  `fetchAllPages` starts `fetchRecursive` with an
absent cursor and an empty accumulator; each step appends `results` and, when
`has_more && Option.isSome(next_cursor)`, recurses with that cursor (the
source passes `Option.getOrNull(next_cursor)`, i.e. the contained string).
The source recursion has no page ceiling, so the embedding is fueled: `none`
means the fuel ran out before the traversal finished.  The second component
instruments the number of `fetchPage` invocations. -/

/-- Structure `PaginatedList<T>`: the fields the traversal reads. -/
structure PaginatedList (α : Type) where
  results : List α
  next_cursor : Option String
  has_more : Bool

/-- Function `fetchRecursive(cursor, accumulated)` inside `fetchAllPages`, fueled, and
instrumented with the number of `fetchPage` calls. -/
def fetchRecFuel {α : Type}
    (fetchPage : Option String → Except NotionError (PaginatedList α)) :
    Nat → Option String → List α → Option (Except NotionError (List α) × Nat)
  | 0, _, _ => none
  | fuel + 1, cursor, accumulated =>
    match fetchPage cursor with
    | .error e => some (.error e, 1)
    | .ok response =>
      let newAccumulated := accumulated ++ response.results
      if response.has_more && response.next_cursor.isSome then
        match fetchRecFuel fetchPage fuel response.next_cursor newAccumulated with
        | none => none
        | some (r, n) => some (r, n + 1)
      else
        some (.ok newAccumulated, 1)

/-- Function `fetchAllPages(fetchPage)` runs `fetchRecursive()` : absent cursor, empty
accumulator. -/
def fetchAllPages {α : Type}
    (fetchPage : Option String → Except NotionError (PaginatedList α))
    (fuel : Nat) : Option (Except NotionError (List α) × Nat) :=
  fetchRecFuel fetchPage fuel none []

/-! ## Typed client facade (`createNotionClient` in sdk.ts)

Each operation fixes an HTTP method and a path template and delegates to
`http.request`.  For the block family we also record the body (present or
absent); for the remaining operations only the method/path pair matters to
the claims, so `facadeOps` projects every `http.request` call of the facade
onto its method and path. -/

/-- HTTP methods of the operations module. -/
inductive HttpMethod where
  | GET
  | POST
  | PATCH
  | DELETE
deriving DecidableEq, Repr

/-- Type `BlockUpdateRequest`: `Partial<BlockCreateRequest> & { archived?: boolean }`.
Only the `archived` field is relevant to the claims; the per-kind payload of
the partial create request is abstracted as an opaque remainder. -/
structure BlockUpdateRequest where
  archived : Option Bool
deriving DecidableEq, Repr

/-- Type `DeleteBlockRequest` from the operations module ("Delete block is just
archiving it"): its `archived` field has the literal type `true`. -/
structure DeleteBlockRequest where
  archived : Bool
  archived_is_true : archived = true

/-- Bodies carried by the block-family facade operations. -/
inductive BlocksBody where
  | update (r : BlockUpdateRequest)
deriving DecidableEq, Repr

/-- Structure `RequestOptions`: method, path, optional body, optional query. -/
structure RequestOptions (β : Type) where
  method : HttpMethod
  path : String
  body : Option β
  query : Option (List (String × String))

/-- Operation `blocks.update(id, request)`: `PATCH /v1/blocks/{id}` with the request as
body. -/
def blocksUpdate (id : String) (request : BlockUpdateRequest) :
    RequestOptions BlocksBody :=
  { method := .PATCH, path := "/v1/blocks/" ++ id,
    body := some (.update request), query := none }

/-- Operation `blocks.delete(id)`: `DELETE /v1/blocks/{id}`, no body. -/
def blocksDelete (id : String) : RequestOptions BlocksBody :=
  { method := .DELETE, path := "/v1/blocks/" ++ id, body := none, query := none }

/-- Method and path of every `http.request` call made by the facade
(databases, pages, blocks, users, search, comments), in source order. -/
def facadeOps (id : String) : List (HttpMethod × String) :=
  [(.GET, "/v1/databases/" ++ id),
   (.POST, "/v1/databases"),
   (.PATCH, "/v1/databases/" ++ id),
   (.POST, "/v1/databases/" ++ id ++ "/query"),
   (.GET, "/v1/pages/" ++ id),
   (.POST, "/v1/pages"),
   (.PATCH, "/v1/pages/" ++ id),
   (.GET, "/v1/blocks/" ++ id),
   (.PATCH, "/v1/blocks/" ++ id),
   (.DELETE, "/v1/blocks/" ++ id),
   (.GET, "/v1/blocks/" ++ id ++ "/children"),
   (.PATCH, "/v1/blocks/" ++ id ++ "/children"),
   (.GET, "/v1/users/" ++ id),
   (.GET, "/v1/users"),
   (.GET, "/v1/users/me"),
   (.POST, "/v1/search"),
   (.POST, "/v1/comments"),
   (.GET, "/v1/comments")]

/-! ## URL building (`buildURL` in sdk.ts)

`buildURL` runs `new URL(path, baseURL)` and then sets the query parameters.
WHATWG URL resolution with an absolute-path reference (the path starts with
`/`) keeps only the scheme and authority of the base and replaces its whole
path; with a relative reference it replaces the base path's last segment.
Dot-segment normalization and percent-encoding never trigger on the facade's
inputs and are not modelled. -/

/-- Boolean prefix test on character lists (structural, kernel-evaluable). -/
def chStartsWith : List Char → List Char → Bool
  | _, [] => true
  | [], _ :: _ => false
  | c :: s, p :: ps => c == p && chStartsWith s ps

/-- Test that `s` starts with `p`. -/
def strStartsWith (s p : String) : Bool := chStartsWith s.data p.data

/-- Split a URL's characters at the `://` scheme separator: returns the
characters up to and including the separator, and the remainder. -/
def afterSchemeSep : List Char → Option (List Char × List Char)
  | [] => none
  | ':' :: '/' :: '/' :: rest => some ([':', '/', '/'], rest)
  | c :: rest =>
    match afterSchemeSep rest with
    | some (pre, r) => some (c :: pre, r)
    | none => none

/-- Characters of the authority: everything up to the first `/`. -/
def takeAuthority : List Char → List Char
  | [] => []
  | c :: rest => if c = '/' then [] else c :: takeAuthority rest

/-- Characters from the first `/` on (the path of the URL). -/
def dropAuthority : List Char → List Char
  | [] => []
  | c :: rest => if c = '/' then c :: rest else dropAuthority rest

/-- Origin `scheme://authority` of a URL string. -/
def urlOrigin (base : String) : String :=
  match afterSchemeSep base.data with
  | some (pre, rest) => String.mk (pre ++ takeAuthority rest)
  | none => base

/-- Path component of a URL string. -/
def urlPathOf (base : String) : List Char :=
  match afterSchemeSep base.data with
  | some (_, rest) => dropAuthority rest
  | none => base.data

/-- Keep the characters up to and including the last `/`. -/
def dropLastSeg (l : List Char) : List Char := (dropAuthority l.reverse).reverse

/-- WHATWG resolution of `new URL(path, base)` for the cases the client
exercises: an absolute-path reference replaces the base's path; a relative
reference replaces its last segment. -/
def urlResolve (path base : String) : String :=
  if chStartsWith path.data ['/'] then urlOrigin base ++ path
  else urlOrigin base ++ String.mk (dropLastSeg (urlPathOf base)) ++ path

/-- Render query pairs as `k=v` joined by `&` (percent-encoding is not
modelled; no facade claim exercises it). -/
def queryPairs : List (String × String) → String
  | [] => ""
  | [(k, v)] => k ++ "=" ++ v
  | (k, v) :: rest => k ++ "=" ++ v ++ "&" ++ queryPairs rest

/-- Client configuration (`NotionClientConfig`): the fields `buildURL`
reads. -/
structure NotionClientConfig where
  auth : String
  notionVersion : Option String
  baseURL : Option String
  timeoutMs : Option Nat

/-- Function `buildURL(path, query)`: resolve `path` against the configured base URL
(default `https://api.notion.com/v1`), then set the query parameters
(`undefined`/`null` values are skipped by the source; the embedding's query
values are all present). -/
def buildURL (config : NotionClientConfig) (path : String)
    (query : Option (List (String × String))) : String :=
  let baseURL := config.baseURL.getD "https://api.notion.com/v1"
  let url := urlResolve path baseURL
  match query with
  | none => url
  | some q => if q = [] then url else url ++ "?" ++ queryPairs q

/-! ## JSON decoding (`JSON.parse` as used by `parseResponse`)

The response parser calls the platform's `JSON.parse` on the body text.  We
model it with a small recursive-descent parser over the character list:
whitespace, `null`, booleans, numbers (sign, integer and fraction parts;
exponents and `\uXXXX` escapes never occur in the claims' inputs and are not
modelled), strings with the common backslash escapes, arrays and objects.
Numbers keep their lexeme: no claim inspects numeric values. -/

/-- JSON values produced by the decoder. -/
inductive Json where
  | null
  | bool (b : Bool)
  | num (raw : String)
  | str (s : String)
  | arr (elems : List Json)
  | obj (fields : List (String × Json))

/-- Skip JSON whitespace. -/
def skipWs : List Char → List Char
  | [] => []
  | c :: rest =>
    if c = ' ' ∨ c = '\n' ∨ c = '\t' ∨ c = '\r' then skipWs rest else c :: rest

/-- Translate a backslash escape character. -/
def escChar (c : Char) : Char :=
  if c = 'n' then '\n'
  else if c = 't' then '\t'
  else if c = 'r' then '\r'
  else c

/-- Parse the contents of a string literal after the opening quote; returns
the decoded characters and the remainder after the closing quote. -/
def parseStringChars : List Char → Option (List Char × List Char)
  | [] => none
  | '"' :: rest => some ([], rest)
  | '\\' :: e :: rest =>
    (parseStringChars rest).map fun (s, r) => (escChar e :: s, r)
  | ['\\'] => none
  | c :: rest => (parseStringChars rest).map fun (s, r) => (c :: s, r)

/-- Decide whether a character is a decimal digit. -/
def isDigitCh (c : Char) : Bool := '0' ≤ c && c ≤ '9'

/-- Take a maximal run of digits. -/
def takeDigits : List Char → List Char × List Char
  | [] => ([], [])
  | c :: rest =>
    if isDigitCh c then
      let (d, r) := takeDigits rest
      (c :: d, r)
    else ([], c :: rest)

/-- Parse a JSON number lexeme (optional sign, digits, optional fraction). -/
def parseNumberLex (l : List Char) : Option (List Char × List Char) :=
  let (sign, l1) := match l with
    | '-' :: r => (['-'], r)
    | _ => (([] : List Char), l)
  match takeDigits l1 with
  | ([], _) => none
  | (ds, r) =>
    match r with
    | '.' :: r2 =>
      match takeDigits r2 with
      | ([], _) => none
      | (fs, r3) => some (sign ++ ds ++ '.' :: fs, r3)
    | _ => some (sign ++ ds, r)

mutual

/-- Parse one JSON value (fueled). -/
def parseValue : Nat → List Char → Option (Json × List Char)
  | 0, _ => none
  | fuel + 1, l =>
    match skipWs l with
    | 'n' :: 'u' :: 'l' :: 'l' :: rest => some (.null, rest)
    | 't' :: 'r' :: 'u' :: 'e' :: rest => some (.bool true, rest)
    | 'f' :: 'a' :: 'l' :: 's' :: 'e' :: rest => some (.bool false, rest)
    | '"' :: rest =>
      (parseStringChars rest).map fun (s, r) => (.str (String.mk s), r)
    | '[' :: rest =>
      (match skipWs rest with
       | ']' :: r => some (.arr [], r)
       | _ => (parseElems fuel rest).map fun (es, r) => (.arr es, r))
    | '{' :: rest =>
      (match skipWs rest with
       | '}' :: r => some (.obj [], r)
       | _ => (parseMembers fuel rest).map fun (ms, r) => (.obj ms, r))
    | l2 => (parseNumberLex l2).map fun (lex, r) => (.num (String.mk lex), r)

/-- Parse the elements of a non-empty array up to `]` (fueled). -/
def parseElems : Nat → List Char → Option (List Json × List Char)
  | 0, _ => none
  | fuel + 1, l =>
    match parseValue fuel l with
    | none => none
    | some (j, r) =>
      match skipWs r with
      | ',' :: r2 => (parseElems fuel r2).map fun (es, r3) => (j :: es, r3)
      | ']' :: r2 => some ([j], r2)
      | _ => none

/-- Parse the members of a non-empty object up to the closing brace (fueled). -/
def parseMembers : Nat → List Char → Option (List (String × Json) × List Char)
  | 0, _ => none
  | fuel + 1, l =>
    match skipWs l with
    | '"' :: rest =>
      (match parseStringChars rest with
       | none => none
       | some (k, r) =>
         match skipWs r with
         | ':' :: r2 =>
           (match parseValue fuel r2 with
            | none => none
            | some (v, r3) =>
              match skipWs r3 with
              | ',' :: r4 =>
                (parseMembers fuel r4).map fun (ms, r5) => ((String.mk k, v) :: ms, r5)
              | '}' :: r4 => some ([(String.mk k, v)], r4)
              | _ => none)
         | _ => none)
    | _ => none

end

/-- Model of `JSON.parse`: parse one value, allow trailing whitespace only.
The fuel `2·|s| + 2` dominates the recursion depth of any actual parse. -/
def jsonParse (s : String) : Option Json :=
  match parseValue (2 * s.data.length + 2) s.data with
  | some (j, rest) =>
    match skipWs rest with
    | [] => some j
    | _ => none
  | none => none

/-! ## Response parsing (`parseResponse` in sdk.ts)

On a failure status the source runs, inside one `try`:
`const error = JSON.parse(text)` followed by
`Effect.fail(new NotionError({ status: response.status, code: error.code,
message: error.message, requestId: error.request_id }))`.
Two synchronous throws land in the `catch` (which fails with the generic
`internal_server_error` carrying `text || response.statusText`): `JSON.parse`
throwing on invalid JSON, and the `Schema.TaggedError` constructor throwing
when validation fails — `code` must be one of the `NotionErrorCode` literals,
`message` a string, `requestId` a string or absent (property access on a
non-object yields `undefined`, and on `null` throws, both ending in the same
`catch`).  The typed `Effect.fail` itself is not catchable by the `try`.
On a success status the body is `JSON.parse`d and a parse failure yields the
`invalid_json` error.  Reading the body text never fails in the embedding
(the response is given as text). -/

/-- Structured error payload fields accepted by the `NotionError` schema
validation. -/
structure ErrorPayloadFields where
  code : String
  message : String
  requestId : Option String
deriving DecidableEq, Repr

/-- Look a key up in decoded JSON object fields; on duplicate keys
`JSON.parse` keeps the last occurrence. -/
def jsonLookup : List (String × Json) → String → Option Json
  | [], _ => none
  | (k2, v) :: rest, k =>
    match jsonLookup rest k with
    | some v2 => some v2
    | none => if k2 = k then some v else none

/-- Project a JSON value to a string, when it is one. -/
def asStr : Json → Option String
  | .str s => some s
  | _ => none

/-- Validation performed by the `NotionError` constructor on the decoded
payload: `code` a known error-code literal, `message` a string, `request_id`
a string or absent.  Returns `none` when the constructor would throw. -/
def validateErrorPayload : Json → Option ErrorPayloadFields
  | .obj fields =>
    (match (jsonLookup fields "code").bind asStr with
     | none => none
     | some code =>
       if notionErrorCodes.contains code then
         match (jsonLookup fields "message").bind asStr with
         | none => none
         | some message =>
           match jsonLookup fields "request_id" with
           | none => some ⟨code, message, none⟩
           | some (.str rid) => some ⟨code, message, some rid⟩
           | some _ => none
       else none)
  | _ => none

/-- An HTTP response as `parseResponse` observes it: status, status text and
the body read as text. -/
structure HttpResponse where
  status : Nat
  statusText : String
  bodyText : String

/-- Property `response.ok`: the status is in the 2xx success range. -/
def responseOk (r : HttpResponse) : Bool := 200 ≤ r.status && r.status ≤ 299

/-- Message of the generic failure branch: `text || response.statusText`
(an empty body text is falsy in JavaScript). -/
def failureMessage (r : HttpResponse) : String :=
  if r.bodyText = "" then r.statusText else r.bodyText

/-- Function `parseResponse` of the source, over the observed response. -/
def parseResponse (r : HttpResponse) : Except NotionError Json :=
  if responseOk r then
    match jsonParse r.bodyText with
    | some j => .ok j
    | none => .error ⟨r.status, "invalid_json", "Invalid JSON response", none⟩
  else
    match jsonParse r.bodyText with
    | some j =>
      match validateErrorPayload j with
      | some f => .error ⟨r.status, f.code, f.message, f.requestId⟩
      | none => .error ⟨r.status, "internal_server_error", failureMessage r, none⟩
    | none => .error ⟨r.status, "internal_server_error", failureMessage r, none⟩

/-! ## Concrete scenario data -/

/-- Error returned by the two-page fetch function on an unknown cursor. -/
def errUnknownCursor : NotionError := ⟨400, "object_not_found", "unknown cursor", none⟩

/-- The two-page fetch function of the pagination scenario: the first page is
`[A, B]` with cursor "x" and `has_more`, the second is `[C]` with no cursor
and `has_more = false`. -/
def twoPageFetch : Option String → Except NotionError (PaginatedList String)
  | none => .ok ⟨["A", "B"], some "x", true⟩
  | some c => if c = "x" then .ok ⟨["C"], none, false⟩ else .error errUnknownCursor

/-! ## Theorems -/

/-- C1: for every request whose underlying HTTP call always fails with an
error whose code is one of rate_limited, internal_server_error,
service_unavailable or gateway_timeout, the pipeline's request operation
performs exactly 4 total attempts (the initial attempt plus 3 retries), with
inter-attempt delays of 1 s, 2 s and 4 s, before surfacing the final
failure. -/
theorem request_retries_transient_error_four_attempts {α : Type}
    (call : Nat → Except NotionError α) (e : NotionError)
    (hall : ∀ n, call n = Except.error e) (hretry : retryWhile e = true) :
    requestRetry call = (Except.error e, 4, [1000, 2000, 4000]) := by
  simp [requestRetry, retryLoop, hall, hretry, expDelay]

/-- Witness for C1: a call that always fails with `rate_limited` surfaces
that error after 4 attempts with delays 1000 ms, 2000 ms, 4000 ms. -/
theorem request_retries_transient_error_four_attempts_witness :
    requestRetry (fun _ => (Except.error ⟨429, "rate_limited", "rate limited", none⟩ :
        Except NotionError Unit)) =
      (Except.error ⟨429, "rate_limited", "rate limited", none⟩, 4, [1000, 2000, 4000]) :=
  request_retries_transient_error_four_attempts _ _ (fun _ => rfl) rfl

/-- C6: for every request whose underlying call fails with an error whose
code is outside the transient set (e.g. validation_error, object_not_found,
unauthorized, restricted_resource, conflict_error, missing_version,
invalid_json), the pipeline performs exactly 1 attempt and propagates that
exact error immediately, with no retry and no backoff delay. -/
theorem request_no_retry_on_nontransient_error {α : Type}
    (call : Nat → Except NotionError α) (e : NotionError)
    (h0 : call 0 = Except.error e) (hretry : retryWhile e = false) :
    requestRetry call = (Except.error e, 1, []) := by
  simp [requestRetry, retryLoop, h0, hretry]

/-- Witness for C6: a first attempt failing with `validation_error` is
surfaced after exactly one attempt with no delay. -/
theorem request_no_retry_on_nontransient_error_witness :
    requestRetry (fun _ => (Except.error ⟨400, "validation_error", "bad", none⟩ :
        Except NotionError Unit)) =
      (Except.error ⟨400, "validation_error", "bad", none⟩, 1, []) :=
  request_no_retry_on_nontransient_error _ _ rfl rfl

/-- C2 (code bug): the claim says a completed `acquire` leaves the
available-permit count one lower, with permits restored only by the refill
task.  The code's `acquire` is `TSemaphore.withPermit(semaphore)(Effect.void)`,
which releases the acquired permit as soon as the wrapped `Effect.void`
completes: for every positive count `p + 1`, a completed acquire leaves the
count unchanged at `p + 1`; concretely, from 10 permits a completed acquire
leaves 10, not 9. -/
theorem acquire_returns_permit_on_completion :
    (∀ p : Nat, withPermitVoid (p + 1) = some (p + 1)) ∧
      withPermitVoid 10 = some 10 ∧ withPermitVoid 10 ≠ some 9 := by
  refine ⟨fun p => ?_, by decide, by decide⟩
  simp [withPermitVoid, tsemAcquire, tsemReleaseN]

/-- C3 (code bug): the claim says the refill cycle caps the count at `burst`.
The code's refill is `TSemaphore.releaseN(semaphore, 1)`, which adds a permit
unconditionally: every cycle maps `p` to `p + 1`, and from the initial
`burst = 10` a single refill with no acquires reaches the count 11 > 10. -/
theorem refill_exceeds_burst :
    (∀ p : Nat, refillCycle p = p + 1) ∧
      RateLimiterReachable 10 11 ∧ ¬(11 ≤ 10) := by
  refine ⟨fun p => rfl, ?_, by decide⟩
  exact RateLimiterReachable.refill 10 RateLimiterReachable.init

/-- Helper: a successful traversal only ever extends the accumulator it was
started with, preserving order. -/
theorem fetchRec_result_extends_acc {α : Type}
    (fp : Option String → Except NotionError (PaginatedList α)) :
    ∀ (fuel : Nat) (c : Option String) (acc r : List α) (n : Nat),
      fetchRecFuel fp fuel c acc = some (Except.ok r, n) → ∃ t, r = acc ++ t := by
  intro fuel
  induction fuel with
  | zero =>
    intro c acc r n h
    exact absurd h (by simp [fetchRecFuel])
  | succ fuel ih =>
    intro c acc r n h
    simp only [fetchRecFuel] at h
    split at h
    · simp at h
    · split at h
      · split at h
        · simp at h
        · next pr heq =>
          obtain ⟨h1, _⟩ := Prod.mk.injEq .. ▸ Option.some.injEq .. ▸ h
          obtain ⟨t, ht⟩ := ih _ _ _ _ (h1 ▸ heq)
          exact ⟨_, by rw [ht, List.append_assoc]⟩
      · obtain ⟨h1, _⟩ := Prod.mk.injEq .. ▸ Option.some.injEq .. ▸ h
        exact ⟨_, (Except.ok.injEq .. ▸ h1).symm⟩

/-- Helper: an error surfaced by the traversal is the error of some fetch. -/
theorem fetchRec_error_from_fetch {α : Type}
    (fp : Option String → Except NotionError (PaginatedList α)) :
    ∀ (fuel : Nat) (c : Option String) (acc : List α) (e : NotionError) (n : Nat),
      fetchRecFuel fp fuel c acc = some (Except.error e, n) →
        ∃ c2, fp c2 = Except.error e := by
  intro fuel
  induction fuel with
  | zero =>
    intro c acc e n h
    exact absurd h (by simp [fetchRecFuel])
  | succ fuel ih =>
    intro c acc e n h
    simp only [fetchRecFuel] at h
    split at h
    · next e2 heq =>
      obtain ⟨h1, _⟩ := Prod.mk.injEq .. ▸ Option.some.injEq .. ▸ h
      have he : e2 = e := by injection h1
      exact ⟨c, by rw [heq, he]⟩
    · split at h
      · split at h
        · simp at h
        · next pr heq =>
          obtain ⟨h1, _⟩ := Prod.mk.injEq .. ▸ Option.some.injEq .. ▸ h
          exact ih _ _ _ _ (h1 ▸ heq)
      · simp at h

/-- C4: for every fetch function, fetchAllPages returns the ordered
concatenation of the fetched pages' results, calling the fetch function once
per page (it starts with an absent cursor and recurses with next_cursor
exactly while has_more is true and next_cursor is present): on the two-page
fetch function returning [A,B] (cursor "x", has_more) then [C] (no cursor,
has_more false) it returns [A,B,C] in order with exactly 2 fetch calls, and
in general a successful traversal extends its accumulator in order. -/
theorem fetchAllPages_concatenates_in_order :
    (∀ k : Nat, fetchAllPages twoPageFetch (k + 2) =
        some (Except.ok ["A", "B", "C"], 2)) ∧
    (∀ (α : Type) (fp : Option String → Except NotionError (PaginatedList α))
        (fuel : Nat) (c : Option String) (acc r : List α) (n : Nat),
      fetchRecFuel fp fuel c acc = some (Except.ok r, n) → ∃ t, r = acc ++ t) := by
  constructor
  · intro k; rfl
  · exact fun α fp fuel c acc r n h => fetchRec_result_extends_acc fp fuel c acc r n h

/-- Witness for C4: at fuel 2 the scenario evaluates to [A,B,C] with 2 calls,
and the general conjunct applies to that concrete run. -/
theorem fetchAllPages_concatenates_in_order_witness :
    fetchAllPages twoPageFetch 2 = some (Except.ok ["A", "B", "C"], 2) ∧
      ∃ t, (["A", "B", "C"] : List String) = [] ++ t := by
  constructor
  · exact fetchAllPages_concatenates_in_order.1 0
  · exact fetchAllPages_concatenates_in_order.2 String twoPageFetch 2 none []
      ["A", "B", "C"] 2 (fetchAllPages_concatenates_in_order.1 0)

/-- C7: for every fetch function, a page fetch failure makes the traversal
fail with exactly that error — whatever was accumulated before the failing
fetch is discarded (the outcome is the same for every accumulator and
carries no results), and any surfaced error is the error of a fetch. -/
theorem fetchAllPages_failure_discards_partial_results :
    (∀ (α : Type) (fp : Option String → Except NotionError (PaginatedList α))
        (fuel : Nat) (c : Option String) (acc : List α) (e : NotionError),
      fp c = Except.error e →
        fetchRecFuel fp (fuel + 1) c acc = some (Except.error e, 1)) ∧
    (∀ (α : Type) (fp : Option String → Except NotionError (PaginatedList α))
        (fuel : Nat) (c : Option String) (acc : List α) (e : NotionError) (n : Nat),
      fetchRecFuel fp fuel c acc = some (Except.error e, n) →
        ∃ c2, fp c2 = Except.error e) := by
  constructor
  · intro α fp fuel c acc e h
    simp [fetchRecFuel, h]
  · exact fun α fp fuel c acc e n h => fetchRec_error_from_fetch fp fuel c acc e n h

/-- Witness for C7: a fetch that fails on the second page aborts the
traversal with that error even though the first page accumulated [A, B]. -/
theorem fetchAllPages_failure_discards_partial_results_witness :
    fetchRecFuel twoPageFetch 1 (some "y") ["A", "B"] =
      some (Except.error errUnknownCursor, 1) ∧
    ∃ c2, twoPageFetch c2 = Except.error errUnknownCursor := by
  constructor
  · exact fetchAllPages_failure_discards_partial_results.1 String twoPageFetch 0
      (some "y") ["A", "B"] errUnknownCursor rfl
  · exact fetchAllPages_failure_discards_partial_results.2 String twoPageFetch 1
      (some "y") ["A", "B"] errUnknownCursor 1
      (fetchAllPages_failure_discards_partial_results.1 String twoPageFetch 0
        (some "y") ["A", "B"] errUnknownCursor rfl)

/-- C5 counterexample: the facade's block delete is an HTTP DELETE with no
request body — it is not an update (PATCH) request carrying archived: true. -/
theorem blocks_delete_not_archive_update_counterexample :
    (blocksDelete "b1").method = HttpMethod.DELETE ∧
    (blocksDelete "b1").body = none ∧
    ¬((blocksDelete "b1").method = HttpMethod.PATCH ∧
      ∃ r : BlockUpdateRequest,
        (blocksDelete "b1").body = some (BlocksBody.update r) ∧ r.archived = some true) := by
  refine ⟨rfl, rfl, ?_⟩
  rintro ⟨hm, -⟩
  exact absurd hm (by decide)

/-- C5 amended: blocks.delete sends an HTTP DELETE to /v1/blocks/{id} with no
body and no query (delete-as-archive is the remote API's own semantics,
documented by the unused DeleteBlockRequest type whose archived field is
always true); it is not built as an update request carrying archived: true. -/
theorem blocks_delete_sends_http_delete (id : String) :
    (blocksDelete id).method = HttpMethod.DELETE ∧
    (blocksDelete id).path = "/v1/blocks/" ++ id ∧
    (blocksDelete id).body = none ∧
    (blocksDelete id).query = none ∧
    ∀ r : DeleteBlockRequest, r.archived = true :=
  ⟨rfl, rfl, rfl, rfl, fun r => r.archived_is_true⟩

/-- C8 counterexample: on a failing response with HTTP status 400 whose body
decodes to a structured payload declaring status 500, the error carries 400
(the response status), not the decoded payload's status; and on a failing
response with an empty body, the generic error's message is the status text,
not the raw (empty) response text. -/
theorem parseResponse_payload_status_counterexample :
    parseResponse ⟨400, "Bad Request",
        "\x7b\"status\":500,\"code\":\"validation_error\",\"message\":\"m\"\x7d"⟩ =
      Except.error ⟨400, "validation_error", "m", none⟩ ∧
    (400 : Nat) ≠ 500 ∧
    parseResponse ⟨502, "Bad Gateway", ""⟩ =
      Except.error ⟨502, "internal_server_error", "Bad Gateway", none⟩ ∧
    "Bad Gateway" ≠ "" :=
  ⟨rfl, by decide, rfl, by decide⟩

/-- C8 amended: for every HTTP response whose status indicates failure — if
the body is not valid JSON, or is JSON that fails the structured-payload
validation (code not a known error-code literal, message not a string, or
request_id present but not a string), the request fails with
internal_server_error whose message is the raw text when non-empty and the
status text otherwise; if the body decodes and validates as a structured
payload, the request fails with the response's HTTP status and the payload's
code, message and request id. -/
theorem parseResponse_failure_classification (r : HttpResponse)
    (hok : responseOk r = false) :
    (jsonParse r.bodyText = none →
       parseResponse r =
         Except.error ⟨r.status, "internal_server_error", failureMessage r, none⟩) ∧
    (∀ j, jsonParse r.bodyText = some j → validateErrorPayload j = none →
       parseResponse r =
         Except.error ⟨r.status, "internal_server_error", failureMessage r, none⟩) ∧
    (∀ j f, jsonParse r.bodyText = some j → validateErrorPayload j = some f →
       parseResponse r = Except.error ⟨r.status, f.code, f.message, f.requestId⟩) :=
  ⟨fun hj => by simp [parseResponse, hok, hj],
   fun j hj hv => by simp [parseResponse, hok, hj, hv],
   fun j f hj hv => by simp [parseResponse, hok, hj, hv]⟩

/-- Witness for C8: a 404 response with a well-formed structured error body
fails with the response status and the payload's code and message. -/
theorem parseResponse_failure_classification_witness :
    parseResponse ⟨404, "Not Found",
        "\x7b\"code\":\"object_not_found\",\"message\":\"nope\"\x7d"⟩ =
      Except.error ⟨404, "object_not_found", "nope", none⟩ :=
  (parseResponse_failure_classification
      ⟨404, "Not Found", "\x7b\"code\":\"object_not_found\",\"message\":\"nope\"\x7d"⟩
      rfl).2.2
    (Json.obj [("code", Json.str "object_not_found"), ("message", Json.str "nope")])
    ⟨"object_not_found", "nope", none⟩ rfl rfl

/-- C9: for every response with a success HTTP status whose body text is not
valid JSON, the request fails with the typed invalid_json error — the parser
is a total function, so no unstructured exception escapes. -/
theorem success_response_invalid_body_yields_invalid_json (r : HttpResponse)
    (hok : responseOk r = true) (hj : jsonParse r.bodyText = none) :
    parseResponse r =
      Except.error ⟨r.status, "invalid_json", "Invalid JSON response", none⟩ := by
  simp [parseResponse, hok, hj]

/-- Witness for C9: a 200-status response with body "not json" fails with
the invalid_json error. -/
theorem success_response_invalid_body_yields_invalid_json_witness :
    parseResponse ⟨200, "OK", "not json"⟩ =
      Except.error ⟨200, "invalid_json", "Invalid JSON response", none⟩ :=
  success_response_invalid_body_yields_invalid_json ⟨200, "OK", "not json"⟩ rfl rfl

/-- Helper: every character list starts with the empty list. -/
theorem chStartsWith_nil (s : List Char) : chStartsWith s [] = true := by
  cases s <;> rfl

/-- Helper: a character list starts with itself, whatever follows. -/
theorem chStartsWith_append (p t : List Char) : chStartsWith (p ++ t) p = true := by
  induction p with
  | nil => exact chStartsWith_nil t
  | cons c cs ih => simp [chStartsWith, ih]

/-- C10: every facade operation path begins with "/v1/"; resolving such an
absolute path against the configured base URL keeps only the base's origin,
so the URL is the origin followed by the path, and a custom base URL's path
component (like /custom) is silently discarded — as is the default base's
trailing /v1, which works out because the paths carry /v1 themselves. -/
theorem facade_url_ignores_base_path :
    (∀ id : String, ∀ op ∈ facadeOps id, strStartsWith op.2 "/v1/" = true) ∧
    (∀ (cfg : NotionClientConfig) (base path : String), cfg.baseURL = some base →
       chStartsWith path.data ['/'] = true →
       buildURL cfg path none = urlOrigin base ++ path) ∧
    buildURL ⟨"tok", none, some "https://proxy.example.com/custom", none⟩
        "/v1/databases/abc" none = "https://proxy.example.com/v1/databases/abc" ∧
    buildURL ⟨"tok", none, none, none⟩ "/v1/databases/abc" none =
      "https://api.notion.com/v1/databases/abc" := by
  refine ⟨?_, ?_, rfl, rfl⟩
  · intro id op hop
    simp only [facadeOps, List.mem_cons, List.not_mem_nil, or_false] at hop
    rcases hop with h|h|h|h|h|h|h|h|h|h|h|h|h|h|h|h|h|h <;> subst h <;>
      exact chStartsWith_append "/v1/".data _
  · intro cfg base path h1 h2
    simp [buildURL, urlResolve, h1, h2]

/-- Witness for C10: the users.me path starts with /v1/, and resolving it
against a proxy base URL with a path yields the proxy origin plus the path. -/
theorem facade_url_ignores_base_path_witness :
    strStartsWith "/v1/users/me" "/v1/" = true ∧
    buildURL ⟨"tok", none, some "https://proxy.example.com/custom", none⟩
        "/v1/users/me" none =
      urlOrigin "https://proxy.example.com/custom" ++ "/v1/users/me" := by
  constructor
  · exact facade_url_ignores_base_path.1 "me" (HttpMethod.GET, "/v1/users/me")
      (by simp [facadeOps])
  · exact facade_url_ignores_base_path.2.1
      ⟨"tok", none, some "https://proxy.example.com/custom", none⟩
      "https://proxy.example.com/custom" "/v1/users/me" rfl rfl

end NotionService
